import Mathlib

/-!
# A verification model of the `ioos_qc` core

Shallow embedding of the QC engine described by the repository's
documentation: the QARTOD flag algebra, the test library (range, spike,
rate-of-change, flat-line, attenuated-signal, climatology, location,
density-inversion), the aggregation rollup, the result collector, the
configuration hierarchy with its serialization, and the read-only
netCDF-style run protocol.  Values are modelled as `Option ℚ` (with
`none` the explicitly-missing sample) and times as `ℚ` seconds.
-/

namespace IoosQc

/-- Modelled from the spec: the QARTOD outcome codes.  `qartod.py` itself is
not in the source tree; the flag set {PASS, NOT_EVALUATED, SUSPECT, FAIL,
MISSING} and its canonical numeric encoding 1/2/3/4/9 come from the spec's
data model and the documented examples. -/
inductive Flag where
  | PASS
  | NOT_EVALUATED
  | SUSPECT
  | FAIL
  | MISSING
deriving DecidableEq, Repr

/-- The canonical numeric encoding of the QARTOD flags. -/
def flagCode : Flag → Nat
  | .PASS => 1
  | .NOT_EVALUATED => 2
  | .SUSPECT => 3
  | .FAIL => 4
  | .MISSING => 9

/-- Severity used by aggregation: NOT_EVALUATED < PASS < SUSPECT < FAIL,
with MISSING above everything. -/
def severity : Flag → Nat
  | .NOT_EVALUATED => 0
  | .PASS => 1
  | .SUSPECT => 2
  | .FAIL => 3
  | .MISSING => 4

/-- The more severe of two flags (left-biased on ties). -/
def worse (a b : Flag) : Flag :=
  if severity b ≤ severity a then a else b

/-- An inclusive [low, high] numeric interval used by threshold-style tests. -/
structure Span where
  lo : ℚ
  hi : ℚ
deriving DecidableEq, Repr

/-- Membership in a closed span. -/
def inSpan (s : Span) (v : ℚ) : Prop :=
  s.lo ≤ v ∧ v ≤ s.hi

instance (s : Span) (v : ℚ) : Decidable (inSpan s v) := by
  unfold inSpan; infer_instance

/-- Membership in an optional span; an unset span excludes nothing. -/
def inSpanOpt : Option Span → ℚ → Prop
  | none, _ => True
  | some s, v => inSpan s v

instance (s : Option Span) (v : ℚ) : Decidable (inSpanOpt s v) := by
  cases s <;> (unfold inSpanOpt; infer_instance)

/-- The sample at index `i`, `none` when out of bounds or explicitly missing. -/
def sampleAt (inp : List (Option ℚ)) (i : Nat) : Option ℚ :=
  (inp[i]?).getD none

/-- The time stamp at index `i` (0 out of bounds; callers stay in bounds). -/
def timeAt (tinp : List ℚ) (i : Nat) : ℚ :=
  (tinp[i]?).getD 0

/-- Modelled from the spec: the per-value classification of
`qartod.gross_range_test` (absent from the source tree).  FAIL outside the
closed `fail_span`, else SUSPECT outside the closed `suspect_span` (when one
is configured), else PASS. -/
def grossRangeFlag (suspectSpan : Option Span) (failSpan : Span) (v : ℚ) : Flag :=
  if ¬ inSpan failSpan v then .FAIL
  else if ¬ inSpanOpt suspectSpan v then .SUSPECT
  else .PASS

/-- Modelled from the spec: `qartod.gross_range_test` over a sequence of
optionally-missing values; missing samples map to MISSING before any numeric
logic. -/
def gross_range_test (inp : List (Option ℚ)) (suspectSpan : Option Span)
    (failSpan : Span) : List Flag :=
  inp.map fun x =>
    match x with
    | none => .MISSING
    | some v => grossRangeFlag suspectSpan failSpan v

/-- Modelled from the spec: the per-index classification of
`qartod.spike_test` (absent from the source tree).  Interior points are
compared against the interpolated midpoint of their neighbours; boundary
points are NOT_EVALUATED. -/
def spikeFlagAt (inp : List (Option ℚ)) (suspectThreshold failThreshold : ℚ)
    (i : Nat) : Flag :=
  match sampleAt inp i with
  | none => .MISSING
  | some v =>
    if i = 0 ∨ i + 1 = inp.length then .NOT_EVALUATED
    else
      match sampleAt inp (i - 1), sampleAt inp (i + 1) with
      | some a, some b =>
        let dev := |v - (a + b) / 2|
        if dev > failThreshold then .FAIL
        else if dev > suspectThreshold then .SUSPECT
        else .PASS
      | _, _ => .NOT_EVALUATED

/-- Modelled from the spec: `qartod.spike_test`. -/
def spike_test (inp : List (Option ℚ)) (suspectThreshold failThreshold : ℚ) :
    List Flag :=
  (List.range inp.length).map (spikeFlagAt inp suspectThreshold failThreshold)

/-- Modelled from the spec: the per-index classification of
`qartod.rate_of_change_test` (absent from the source tree).  The magnitude of
the first difference divided by elapsed time is compared against a
change-per-unit-time threshold; the first point is NOT_EVALUATED. -/
def rocFlagAt (inp : List (Option ℚ)) (tinp : List ℚ) (threshold : ℚ)
    (i : Nat) : Flag :=
  match sampleAt inp i with
  | none => .MISSING
  | some v =>
    if i = 0 then .NOT_EVALUATED
    else
      match sampleAt inp (i - 1) with
      | none => .NOT_EVALUATED
      | some prev =>
        if |v - prev| / (timeAt tinp i - timeAt tinp (i - 1)) > threshold
        then .SUSPECT else .PASS

/-- Modelled from the spec: `qartod.rate_of_change_test`. -/
def rate_of_change_test (inp : List (Option ℚ)) (tinp : List ℚ)
    (threshold : ℚ) : List Flag :=
  (List.range inp.length).map (rocFlagAt inp tinp threshold)

/-- Modelled from the spec: the index of the sample at which the value last
changed by more than `tolerance` (used by `qartod.flat_line_test`, absent
from the source tree).  A missing sample breaks the run. -/
def lastResetIdx (inp : List (Option ℚ)) (tolerance : ℚ) : Nat → Nat
  | 0 => 0
  | i + 1 =>
    match sampleAt inp (i + 1), sampleAt inp i with
    | some a, some b =>
      if |a - b| > tolerance then i + 1 else lastResetIdx inp tolerance i
    | _, _ => i + 1

/-- Modelled from the spec: the per-index classification of
`qartod.flat_line_test`.  Flags by the elapsed time since the value last
changed by more than `tolerance`; a flat run starting at the very first
sample needs no prior non-flat anchor. -/
def flatLineFlagAt (inp : List (Option ℚ)) (tinp : List ℚ)
    (tolerance suspectThreshold failThreshold : ℚ) (i : Nat) : Flag :=
  match sampleAt inp i with
  | none => .MISSING
  | some _ =>
    let elapsed := timeAt tinp i - timeAt tinp (lastResetIdx inp tolerance i)
    if elapsed > failThreshold then .FAIL
    else if elapsed > suspectThreshold then .SUSPECT
    else .PASS

/-- Modelled from the spec: `qartod.flat_line_test`. -/
def flat_line_test (inp : List (Option ℚ)) (tinp : List ℚ)
    (tolerance suspectThreshold failThreshold : ℚ) : List Flag :=
  (List.range inp.length).map
    (flatLineFlagAt inp tinp tolerance suspectThreshold failThreshold)

/-- The min-to-max range of a list of rationals (the dispersion statistic of
the attenuated-signal test in its min/max configuration). -/
def rangeStat (l : List ℚ) : ℚ :=
  l.foldl max (l.headD 0) - l.foldl min (l.headD 0)

/-- Modelled from the spec: the per-index classification of
`qartod.attenuated_signal_test` (absent from the source tree) with a
count-based trailing window and the min/max-range dispersion statistic.
Points before the first full window are NOT_EVALUATED; FAIL/SUSPECT when the
statistic falls below the configured thresholds. -/
def attenuatedFlagAt (inp : List (Option ℚ)) (window : Nat)
    (suspectThreshold failThreshold : ℚ) (i : Nat) : Flag :=
  match sampleAt inp i with
  | none => .MISSING
  | some _ =>
    if i + 1 < window then .NOT_EVALUATED
    else
      let vals := ((inp.take (i + 1)).drop (i + 1 - window)).filterMap id
      if rangeStat vals < failThreshold then .FAIL
      else if rangeStat vals < suspectThreshold then .SUSPECT
      else .PASS

/-- Modelled from the spec: `qartod.attenuated_signal_test`. -/
def attenuated_signal_test (inp : List (Option ℚ)) (window : Nat)
    (suspectThreshold failThreshold : ℚ) : List Flag :=
  (List.range inp.length).map
    (attenuatedFlagAt inp window suspectThreshold failThreshold)

/-- One climatology configuration entry: a period-relative time-of-year
window, an optional depth range, and the suspect/fail spans to apply. -/
structure ClimEntry where
  toyStart : ℚ
  toyEnd : ℚ
  zspan : Option Span
  suspectSpan : Option Span
  failSpan : Span
deriving DecidableEq, Repr

/-- Whether a climatology entry covers a sample's time-of-year and depth. -/
def climMatch (e : ClimEntry) (toy : ℚ) (z : Option ℚ) : Bool :=
  decide (e.toyStart ≤ toy ∧ toy ≤ e.toyEnd) &&
    match e.zspan, z with
    | some s, some zv => decide (inSpan s zv)
    | some _, none => false
    | none, _ => true

/-- Modelled from the spec: the per-index classification of
`qartod.climatology_test` (absent from the source tree).  The first entry
whose period and depth range contain the sample supplies the spans for
range-test logic; samples matching no entry are NOT_EVALUATED. -/
def climFlagAt (cfg : List ClimEntry) (inp : List (Option ℚ)) (toy : List ℚ)
    (zinp : List (Option ℚ)) (i : Nat) : Flag :=
  match sampleAt inp i with
  | none => .MISSING
  | some v =>
    match cfg.find? (fun e => climMatch e (timeAt toy i) (sampleAt zinp i)) with
    | none => .NOT_EVALUATED
    | some e => grossRangeFlag e.suspectSpan e.failSpan v

/-- Modelled from the spec: `qartod.climatology_test`; `toy` carries each
sample's period-relative time-of-year and `zinp` its depth. -/
def climatology_test (cfg : List ClimEntry) (inp : List (Option ℚ))
    (toy : List ℚ) (zinp : List (Option ℚ)) : List Flag :=
  (List.range inp.length).map (climFlagAt cfg inp toy zinp)

/-- A geographic bounding box [xmin, ymin, xmax, ymax]. -/
structure BBox where
  xmin : ℚ
  ymin : ℚ
  xmax : ℚ
  ymax : ℚ
deriving DecidableEq, Repr

/-- Modelled from the spec: the per-index classification of
`qartod.location_test` (absent from the source tree) in its bounding-box
form: FAIL outside the box, PASS inside, MISSING on malformed coordinates. -/
def locationFlagAt (lon lat : List (Option ℚ)) (bbox : BBox) (i : Nat) : Flag :=
  match sampleAt lon i, sampleAt lat i with
  | some x, some y =>
    if bbox.xmin ≤ x ∧ x ≤ bbox.xmax ∧ bbox.ymin ≤ y ∧ y ≤ bbox.ymax
    then .PASS else .FAIL
  | _, _ => .MISSING

/-- Modelled from the spec: `qartod.location_test`. -/
def location_test (lon lat : List (Option ℚ)) (bbox : BBox) : List Flag :=
  (List.range lon.length).map (locationFlagAt lon lat bbox)

/-- Modelled from the spec: the per-index classification of the
density-inversion test (absent from the source tree): with samples ordered by
increasing depth, FAIL where density drops below the previous sample by more
than `tolerance`; the first point is NOT_EVALUATED. -/
def densityInversionFlagAt (rho : List (Option ℚ)) (tolerance : ℚ)
    (i : Nat) : Flag :=
  match sampleAt rho i with
  | none => .MISSING
  | some r =>
    if i = 0 then .NOT_EVALUATED
    else
      match sampleAt rho (i - 1) with
      | none => .NOT_EVALUATED
      | some prev => if r < prev - tolerance then .FAIL else .PASS

/-- Modelled from the spec: `density_inversion_test`. -/
def density_inversion_test (rho : List (Option ℚ)) (tolerance : ℚ) :
    List Flag :=
  (List.range rho.length).map (densityInversionFlagAt rho tolerance)

/-- Modelled from the spec: the QARTOD rollup (the `aggregate` pseudo-test,
absent from the source tree).  MISSING dominates; otherwise the most severe
flag among the contributors that are not NOT_EVALUATED, and NOT_EVALUATED
when there is no such contributor. -/
def aggregate (flags : List Flag) : Flag :=
  if Flag.MISSING ∈ flags then .MISSING
  else (flags.filter (fun f => f ≠ Flag.NOT_EVALUATED)).foldl worse
    .NOT_EVALUATED

/-- One context's contribution to a collected result for a fixed
(variable, test) pair: the flags it produced, keyed by position on the global
time axis. -/
structure CtxResult where
  entries : List (Nat × Flag)
deriving DecidableEq, Repr

/-- Write one context's entries into the accumulating collected series. -/
def applyEntries (acc : List Flag) (es : List (Nat × Flag)) : List Flag :=
  es.foldl (fun a p => a.set p.1 p.2) acc

/-- Modelled from the spec: `results.collect_results` for one
(variable, test) pair (absent from the source tree).  Context results are
written over a NOT_EVALUATED base series in configuration order, so a
later-listed context overwrites an earlier one wherever their windows
overlap. -/
def collect_results (total : Nat) (rs : List CtxResult) : List Flag :=
  rs.foldl (fun acc r => applyEntries acc r.entries)
    (List.replicate total Flag.NOT_EVALUATED)

/-- Modelled from the spec: the structured-mapping form a configuration is
written in (the JSON/YAML-equivalent object graph accepted by `config.py`,
absent from the source tree).  Sequences are cons-chains ended by `vnil`
and object entries are `vfield` nodes. -/
inductive Value where
  | vnull
  | vnum (q : ℚ)
  | vstr (s : String)
  | vnil
  | vseq (head tail : Value)
  | vfield (key : String) (val : Value)
deriving DecidableEq, Repr

/-- One lexical token of the serialized textual form of a `Value`. -/
inductive Token where
  | tnull
  | tnum (q : ℚ)
  | tstr (s : String)
  | tnil
  | tseq
  | tfield (key : String)
deriving DecidableEq, Repr

/-- Serialize a structured value to its textual (token-stream) form. -/
def encodeV : Value → List Token
  | .vnull => [.tnull]
  | .vnum q => [.tnum q]
  | .vstr s => [.tstr s]
  | .vnil => [.tnil]
  | .vseq h t => .tseq :: (encodeV h ++ encodeV t)
  | .vfield k v => .tfield k :: encodeV v

/-- Nesting depth of a structured value; a fuel bound for the decoder. -/
def sizeV : Value → Nat
  | .vseq h t => 1 + max (sizeV h) (sizeV t)
  | .vfield _ v => 1 + sizeV v
  | _ => 1

/-- Fuel-indexed prefix decoder from the token stream back to a `Value`,
returning the decoded value and the unconsumed suffix. -/
def decodeV : Nat → List Token → Option (Value × List Token)
  | 0, _ => none
  | _ + 1, [] => none
  | f + 1, t :: ts =>
    match t with
    | .tnull => some (.vnull, ts)
    | .tnum q => some (.vnum q, ts)
    | .tstr s => some (.vstr s, ts)
    | .tnil => some (.vnil, ts)
    | .tseq =>
      match decodeV f ts with
      | some (h, ts1) =>
        match decodeV f ts1 with
        | some (tl, ts2) => some (.vseq h tl, ts2)
        | none => none
      | none => none
    | .tfield k =>
      match decodeV f ts with
      | some (v, ts1) => some (.vfield k v, ts1)
      | none => none

/-- Decode a complete token stream, with fuel large enough for any value the
stream can encode. -/
def decodeTokens (ts : List Token) : Option (Value × List Token) :=
  decodeV ts.length ts

/-- A scalar, span, or string test parameter value. -/
inductive ParamVal where
  | pnum (q : ℚ)
  | pspan (lo hi : ℚ)
  | pstr (s : String)
deriving DecidableEq, Repr

/-- One configured (module, test, parameters) triple. -/
structure TestCall where
  module : String
  test : String
  params : List (String × ParamVal)
deriving DecidableEq, Repr

/-- Modelled from the spec: `config.StreamConfig` (absent from the source
tree) — the tests configured for one variable. -/
structure StreamConfig where
  calls : List TestCall
deriving DecidableEq, Repr

/-- A time window with either bound nullable (unconstrained). -/
structure TimeWindow where
  starting : Option ℚ
  ending : Option ℚ
deriving DecidableEq, Repr

/-- A closed 2-D region given by its boundary points. -/
structure Region where
  pts : List (ℚ × ℚ)
deriving DecidableEq, Repr

/-- Modelled from the spec: `config.ContextConfig` (absent from the source
tree) — optional region, time window, and per-variable stream configs. -/
structure ContextConfig where
  region : Option Region
  window : TimeWindow
  streams : List (String × StreamConfig)
deriving DecidableEq, Repr

/-- Modelled from the spec: a top-level `config.Config` (absent from the
source tree) — an ordered collection of contexts. -/
structure TopConfig where
  contexts : List ContextConfig
deriving DecidableEq, Repr

/-- The static registry of known (module, test) pairs; configuration parsing
rejects identifiers outside it. -/
def knownTests : List (String × String) :=
  [("qartod", "gross_range_test"), ("qartod", "spike_test"),
   ("qartod", "rate_of_change_test"), ("qartod", "flat_line_test"),
   ("qartod", "attenuated_signal_test"), ("qartod", "climatology_test"),
   ("qartod", "location_test"), ("qartod", "aggregate"),
   ("argo", "density_inversion_test")]

/-- Serialize one parameter value. -/
def serializeParamVal : ParamVal → Value
  | .pnum q => .vnum q
  | .pspan lo hi => .vseq (.vnum lo) (.vseq (.vnum hi) .vnil)
  | .pstr s => .vstr s

/-- Parse one parameter value, rejecting an inverted span. -/
def parseParamVal : Value → Option ParamVal
  | .vnum q => some (.pnum q)
  | .vstr s => some (.pstr s)
  | .vseq (.vnum lo) (.vseq (.vnum hi) .vnil) =>
    if lo ≤ hi then some (.pspan lo hi) else none
  | _ => none

/-- Serialize a parameter mapping. -/
def serializeParams : List (String × ParamVal) → Value
  | [] => .vnil
  | (k, p) :: rest =>
    .vseq (.vfield k (serializeParamVal p)) (serializeParams rest)

/-- Parse a parameter mapping. -/
def parseParams : Value → Option (List (String × ParamVal))
  | .vnil => some []
  | .vseq (.vfield k pv) rest => do
    let p ← parseParamVal pv
    let ps ← parseParams rest
    pure ((k, p) :: ps)
  | _ => none

/-- Serialize one (module, test, parameters) entry. -/
def serializeCall (c : TestCall) : Value :=
  .vfield c.module (.vfield c.test (serializeParams c.params))

/-- Parse one (module, test, parameters) entry, rejecting identifiers not in
the registry. -/
def parseCall : Value → Option TestCall
  | .vfield m (.vfield t pv) =>
    if (m, t) ∈ knownTests then (parseParams pv).map (fun ps => ⟨m, t, ps⟩)
    else none
  | _ => none

/-- Serialize the calls of a stream configuration. -/
def serializeCalls : List TestCall → Value
  | [] => .vnil
  | c :: rest => .vseq (serializeCall c) (serializeCalls rest)

/-- Parse the calls of a stream configuration. -/
def parseCalls : Value → Option (List TestCall)
  | .vnil => some []
  | .vseq e rest => do
    let c ← parseCall e
    let cs ← parseCalls rest
    pure (c :: cs)
  | _ => none

/-- Serialize a stream configuration. -/
def serializeStream (sc : StreamConfig) : Value :=
  serializeCalls sc.calls

/-- Parse a stream configuration from its structured-mapping form. -/
def parseStream (v : Value) : Option StreamConfig :=
  (parseCalls v).map StreamConfig.mk

/-- Serialize a nullable number. -/
def serializeOptNum : Option ℚ → Value
  | none => .vnull
  | some q => .vnum q

/-- Parse a nullable number. -/
def parseOptNum : Value → Option (Option ℚ)
  | .vnull => some none
  | .vnum q => some (some q)
  | _ => none

/-- Serialize a time window. -/
def serializeWindow (w : TimeWindow) : Value :=
  .vseq (.vfield "starting" (serializeOptNum w.starting))
    (.vseq (.vfield "ending" (serializeOptNum w.ending)) .vnil)

/-- Parse a time window. -/
def parseWindow : Value → Option TimeWindow
  | .vseq (.vfield "starting" sv) (.vseq (.vfield "ending" ev) .vnil) => do
    let s ← parseOptNum sv
    let e ← parseOptNum ev
    pure ⟨s, e⟩
  | _ => none

/-- Serialize a point list. -/
def serializePoints : List (ℚ × ℚ) → Value
  | [] => .vnil
  | (x, y) :: rest =>
    .vseq (.vseq (.vnum x) (.vseq (.vnum y) .vnil)) (serializePoints rest)

/-- Parse a point list. -/
def parsePoints : Value → Option (List (ℚ × ℚ))
  | .vnil => some []
  | .vseq (.vseq (.vnum x) (.vseq (.vnum y) .vnil)) rest => do
    let ps ← parsePoints rest
    pure ((x, y) :: ps)
  | _ => none

/-- Serialize an optional region (null means unconstrained). -/
def serializeRegionOpt : Option Region → Value
  | none => .vnull
  | some r => .vfield "polygon" (serializePoints r.pts)

/-- Parse an optional region. -/
def parseRegionOpt : Value → Option (Option Region)
  | .vnull => some none
  | .vfield "polygon" pv => (parsePoints pv).map (fun ps => some ⟨ps⟩)
  | _ => none

/-- Serialize a variable-name → stream-config mapping. -/
def serializeStreams : List (String × StreamConfig) → Value
  | [] => .vnil
  | (name, sc) :: rest =>
    .vseq (.vfield name (serializeStream sc)) (serializeStreams rest)

/-- Parse a variable-name → stream-config mapping. -/
def parseStreams : Value → Option (List (String × StreamConfig))
  | .vnil => some []
  | .vseq (.vfield name sv) rest => do
    let sc ← parseStream sv
    let ss ← parseStreams rest
    pure ((name, sc) :: ss)
  | _ => none

/-- Serialize a context configuration. -/
def serializeContext (cc : ContextConfig) : Value :=
  .vseq (.vfield "region" (serializeRegionOpt cc.region))
    (.vseq (.vfield "window" (serializeWindow cc.window))
      (.vseq (.vfield "streams" (serializeStreams cc.streams)) .vnil))

/-- Parse a context configuration from its structured-mapping form. -/
def parseContext : Value → Option ContextConfig
  | .vseq (.vfield "region" rv)
      (.vseq (.vfield "window" wv)
        (.vseq (.vfield "streams" sv) .vnil)) => do
    let r ← parseRegionOpt rv
    let w ← parseWindow wv
    let ss ← parseStreams sv
    pure ⟨r, w, ss⟩
  | _ => none

/-- Serialize the contexts of a top-level configuration. -/
def serializeContexts : List ContextConfig → Value
  | [] => .vnil
  | c :: rest => .vseq (serializeContext c) (serializeContexts rest)

/-- Parse the contexts of a top-level configuration. -/
def parseContexts : Value → Option (List ContextConfig)
  | .vnil => some []
  | .vseq cv rest => do
    let c ← parseContext cv
    let cs ← parseContexts rest
    pure (c :: cs)
  | _ => none

/-- Serialize a top-level configuration. -/
def serializeTop (tc : TopConfig) : Value :=
  .vseq (.vfield "contexts" (serializeContexts tc.contexts)) .vnil

/-- Parse a top-level configuration from its structured-mapping form. -/
def parseTop : Value → Option TopConfig
  | .vseq (.vfield "contexts" cv) .vnil => (parseContexts cv).map TopConfig.mk
  | _ => none

/-- Parse a stream configuration from serialized text. -/
def parseStreamText (ts : List Token) : Option StreamConfig :=
  match decodeTokens ts with
  | some (v, []) => parseStream v
  | _ => none

/-- Parse a context configuration from serialized text. -/
def parseContextText (ts : List Token) : Option ContextConfig :=
  match decodeTokens ts with
  | some (v, []) => parseContext v
  | _ => none

/-- Parse a top-level configuration from serialized text. -/
def parseTopText (ts : List Token) : Option TopConfig :=
  match decodeTokens ts with
  | some (v, []) => parseTop v
  | _ => none

/-- A parameter value is well-formed when any span satisfies low ≤ high. -/
def ValidParam : ParamVal → Prop
  | .pspan lo hi => lo ≤ hi
  | _ => True

instance : DecidablePred ValidParam := by
  intro p; cases p <;> (unfold ValidParam; infer_instance)

/-- A call is well-formed when its identifiers are registered and its
parameters are well-formed. -/
def ValidCall (c : TestCall) : Prop :=
  (c.module, c.test) ∈ knownTests ∧ ∀ kp ∈ c.params, ValidParam kp.2

instance (c : TestCall) : Decidable (ValidCall c) := by
  unfold ValidCall; infer_instance

/-- A stream configuration is well-formed when all its calls are. -/
def ValidStream (sc : StreamConfig) : Prop :=
  ∀ c ∈ sc.calls, ValidCall c

instance (sc : StreamConfig) : Decidable (ValidStream sc) := by
  unfold ValidStream; infer_instance

/-- A context configuration is well-formed when all its streams are. -/
def ValidContext (cc : ContextConfig) : Prop :=
  ∀ s ∈ cc.streams, ValidStream s.2

instance (cc : ContextConfig) : Decidable (ValidContext cc) := by
  unfold ValidContext; infer_instance

/-- A top-level configuration is well-formed when all its contexts are. -/
def ValidTop (tc : TopConfig) : Prop :=
  ∀ c ∈ tc.contexts, ValidContext c

instance (tc : TopConfig) : Decidable (ValidTop tc) := by
  unfold ValidTop; infer_instance

/-- One variable of a netCDF-style dataset: a name, its data, and its
attributes. -/
structure NcVariable where
  name : String
  data : List (Option ℚ)
  attrs : List (String × String)
deriving DecidableEq, Repr

/-- A netCDF-style dataset: variables plus global attributes. -/
structure Dataset where
  vars : List NcVariable
  attrs : List (String × String)
deriving DecidableEq, Repr

/-- Read the data of a named variable (empty when absent). -/
def readVar (ds : Dataset) (name : String) : List (Option ℚ) :=
  ((ds.vars.find? (fun v => v.name = name)).map NcVariable.data).getD []

/-- Look up a span parameter of a call by name. -/
def lookupSpan (ps : List (String × ParamVal)) (key : String) : Option Span :=
  match ps.lookup key with
  | some (.pspan lo hi) => some ⟨lo, hi⟩
  | _ => none

/-- Modelled from the spec: dispatch of one configured call to the test
library (the run-time (module, test) → function resolution of `config.py`,
absent from the source tree), shown for the range test; unresolvable calls
yield NOT_EVALUATED for every sample. -/
def runCall (tc : TestCall) (inp : List (Option ℚ)) : List Flag :=
  if tc.module = "qartod" ∧ tc.test = "gross_range_test" then
    match lookupSpan tc.params "fail_span" with
    | some fs => gross_range_test inp (lookupSpan tc.params "suspect_span") fs
    | none => List.replicate inp.length Flag.NOT_EVALUATED
  else List.replicate inp.length Flag.NOT_EVALUATED

/-- One per-variable, per-test result of a dataset run. -/
structure NcResult where
  stream_id : String
  module : String
  test : String
  flags : List Flag
deriving DecidableEq, Repr

/-- Modelled from the spec: `NcQcConfig.run` (absent from the source tree).
For each configured variable it reads that variable's data from the dataset
and runs every configured test on it, threading the dataset through
untouched — the dataset is only read, never written. -/
def ncRun (cfg : List (String × StreamConfig)) (ds : Dataset) :
    List NcResult × Dataset :=
  cfg.foldl
    (fun acc entry =>
      let inp := readVar acc.2 entry.1
      (acc.1 ++ entry.2.calls.map
        (fun tc => ⟨entry.1, tc.module, tc.test, runCall tc inp⟩), acc.2))
    ([], ds)

/-- C1: running the range (gross_range) test on the input values 0..12 with
suspect_span [0, 8] and fail_span [0, 10] returns exactly the flag sequence
[1, 1, 1, 1, 1, 1, 1, 1, 1, 3, 3, 4, 4] under the canonical numeric encoding
PASS = 1, SUSPECT = 3, FAIL = 4. -/
theorem c1_gross_range_scenario :
    (gross_range_test
      [some 0, some 1, some 2, some 3, some 4, some 5, some 6, some 7, some 8,
       some 9, some 10, some 11, some 12] (some ⟨0, 8⟩) ⟨0, 10⟩).map flagCode =
      [1, 1, 1, 1, 1, 1, 1, 1, 1, 3, 3, 4, 4] := by
  decide

/-- C6 counterexample: the value 10 is exactly the upper fail_span bound of
fail_span [0, 10], yet with suspect_span [0, 8] the range test flags it
SUSPECT, not PASS as the claim states. -/
theorem c6_boundary_counterexample :
    (10 : ℚ) = (Span.mk 0 10).hi ∧
      gross_range_test [some 10] (some ⟨0, 8⟩) ⟨0, 10⟩ ≠ [Flag.PASS] ∧
      gross_range_test [some 10] (some ⟨0, 8⟩) ⟨0, 10⟩ = [Flag.SUSPECT] := by
  decide

/-- C6 (amended): for the range test with a well-formed fail_span, a value
exactly equal to a fail_span bound never flags FAIL (spans are closed, so the
boundary is inside), and it flags PASS exactly when it also lies within the
suspect_span (or none is configured), SUSPECT otherwise; a value one unit
outside a fail_span bound flags FAIL; and in general a value outside
fail_span flags FAIL, else outside suspect_span flags SUSPECT, else PASS. -/
theorem c6_range_boundary (v : ℚ) (ss : Option Span) (fs : Span)
    (hfs : fs.lo ≤ fs.hi) :
    ((v = fs.lo ∨ v = fs.hi) → grossRangeFlag ss fs v ≠ Flag.FAIL)
    ∧ ((v = fs.lo ∨ v = fs.hi) → inSpanOpt ss v →
        grossRangeFlag ss fs v = Flag.PASS)
    ∧ grossRangeFlag ss fs (fs.hi + 1) = Flag.FAIL
    ∧ grossRangeFlag ss fs (fs.lo - 1) = Flag.FAIL
    ∧ (¬ inSpan fs v → grossRangeFlag ss fs v = Flag.FAIL)
    ∧ (inSpan fs v → ¬ inSpanOpt ss v → grossRangeFlag ss fs v = Flag.SUSPECT)
    ∧ (inSpan fs v → inSpanOpt ss v → grossRangeFlag ss fs v = Flag.PASS) := by
  have hin : (v = fs.lo ∨ v = fs.hi) → inSpan fs v := by
    rintro (rfl | rfl)
    · exact ⟨le_refl _, hfs⟩
    · exact ⟨hfs, le_refl _⟩
  refine ⟨?_, ?_, ?_, ?_, ?_, ?_, ?_⟩
  · intro hb
    have h1 := hin hb
    by_cases h2 : inSpanOpt ss v <;> simp [grossRangeFlag, h1, h2]
  · intro hb h2
    have h1 := hin hb
    simp [grossRangeFlag, h1, h2]
  · have hout : ¬ inSpan fs (fs.hi + 1) := by
      intro h
      have := h.2
      linarith
    simp [grossRangeFlag, hout]
  · have hout : ¬ inSpan fs (fs.lo - 1) := by
      intro h
      have := h.1
      linarith
    simp [grossRangeFlag, hout]
  · intro h1
    simp [grossRangeFlag, h1]
  · intro h1 h2
    simp [grossRangeFlag, h1, h2]
  · intro h1 h2
    simp [grossRangeFlag, h1, h2]

/-- C6 witness: the amended boundary property instantiated at fail_span
[0, 10] with suspect_span [0, 8] and the boundary value 10. -/
theorem c6_range_boundary_witness :
    (0 : ℚ) ≤ 10 ∧
      (((10 : ℚ) = (Span.mk 0 10).lo ∨ (10 : ℚ) = (Span.mk 0 10).hi) →
          grossRangeFlag (some ⟨0, 8⟩) ⟨0, 10⟩ 10 ≠ Flag.FAIL)
      ∧ (((10 : ℚ) = (Span.mk 0 10).lo ∨ (10 : ℚ) = (Span.mk 0 10).hi) →
          inSpanOpt (some ⟨0, 8⟩) 10 →
          grossRangeFlag (some ⟨0, 8⟩) ⟨0, 10⟩ 10 = Flag.PASS)
      ∧ grossRangeFlag (some ⟨0, 8⟩) ⟨0, 10⟩ ((Span.mk 0 10).hi + 1) = Flag.FAIL
      ∧ grossRangeFlag (some ⟨0, 8⟩) ⟨0, 10⟩ ((Span.mk 0 10).lo - 1) = Flag.FAIL
      ∧ (¬ inSpan ⟨0, 10⟩ 10 → grossRangeFlag (some ⟨0, 8⟩) ⟨0, 10⟩ 10 = Flag.FAIL)
      ∧ (inSpan ⟨0, 10⟩ 10 → ¬ inSpanOpt (some ⟨0, 8⟩) 10 →
          grossRangeFlag (some ⟨0, 8⟩) ⟨0, 10⟩ 10 = Flag.SUSPECT)
      ∧ (inSpan ⟨0, 10⟩ 10 → inSpanOpt (some ⟨0, 8⟩) 10 →
          grossRangeFlag (some ⟨0, 8⟩) ⟨0, 10⟩ 10 = Flag.PASS) :=
  ⟨by decide, c6_range_boundary 10 (some ⟨0, 8⟩) ⟨0, 10⟩ (by decide)⟩

/-- C2: every test of the library emits exactly one flag per input sample:
the output flag sequence always has the length of the input value sequence
(for the location test, of the coordinate sequences). -/
theorem c2_all_tests_preserve_length :
    ∀ (inp zinp lat lon rho : List (Option ℚ)) (tinp toy : List ℚ)
      (ss : Option Span) (fs : Span) (susTh failTh tol th : ℚ) (w : Nat)
      (cfg : List ClimEntry) (bbox : BBox),
      (gross_range_test inp ss fs).length = inp.length
      ∧ (spike_test inp susTh failTh).length = inp.length
      ∧ (rate_of_change_test inp tinp th).length = inp.length
      ∧ (flat_line_test inp tinp tol susTh failTh).length = inp.length
      ∧ (attenuated_signal_test inp w susTh failTh).length = inp.length
      ∧ (climatology_test cfg inp toy zinp).length = inp.length
      ∧ (location_test lon lat bbox).length = lon.length
      ∧ (density_inversion_test rho tol).length = rho.length := by
  intro inp zinp lat lon rho tinp toy ss fs susTh failTh tol th w cfg bbox
  refine ⟨?_, ?_, ?_, ?_, ?_, ?_, ?_, ?_⟩ <;>
    simp [gross_range_test, spike_test, rate_of_change_test, flat_line_test,
      attenuated_signal_test, climatology_test, location_test,
      density_inversion_test]

lemma severity_le_worse_left (a b : Flag) : severity a ≤ severity (worse a b) := by
  unfold worse
  split <;> omega

lemma severity_le_worse_right (a b : Flag) : severity b ≤ severity (worse a b) := by
  unfold worse
  split <;> omega

lemma worse_eq_or (a b : Flag) : worse a b = a ∨ worse a b = b := by
  unfold worse
  split
  · exact Or.inl rfl
  · exact Or.inr rfl

lemma foldl_worse_mem (l : List Flag) (a : Flag) :
    l.foldl worse a = a ∨ l.foldl worse a ∈ l := by
  induction l generalizing a with
  | nil => exact Or.inl rfl
  | cons b l ih =>
    simp only [List.foldl_cons]
    rcases ih (worse a b) with h | h
    · rcases worse_eq_or a b with hw | hw
      · exact Or.inl (h.trans hw)
      · rw [h, hw]
        exact Or.inr (List.mem_cons_self b l)
    · exact Or.inr (List.mem_cons_of_mem _ h)

lemma foldl_worse_le (l : List Flag) (a : Flag) :
    severity a ≤ severity (l.foldl worse a)
      ∧ ∀ f ∈ l, severity f ≤ severity (l.foldl worse a) := by
  induction l generalizing a with
  | nil => exact ⟨le_refl _, by simp⟩
  | cons b l ih =>
    obtain ⟨h1, h2⟩ := ih (worse a b)
    refine ⟨le_trans (severity_le_worse_left a b) h1, ?_⟩
    intro f hf
    rcases List.mem_cons.mp hf with rfl | hf
    · exact le_trans (severity_le_worse_right a f) h1
    · exact h2 f hf

lemma severity_eq_zero (f : Flag) (h : severity f = 0) :
    f = Flag.NOT_EVALUATED := by
  cases f <;> simp [severity] at h ⊢

/-- C3: for every non-empty list of contributing flags, the rollup is
MISSING as soon as any contributor is MISSING; it is NOT_EVALUATED when all
contributors are NOT_EVALUATED; and otherwise it is one of the contributors,
different from NOT_EVALUATED, of maximal severity among the contributors that
are not NOT_EVALUATED (severity order FAIL > SUSPECT > PASS >
NOT_EVALUATED).  In particular aggregate [PASS, SUSPECT, FAIL] = FAIL,
aggregate [NOT_EVALUATED, NOT_EVALUATED] = NOT_EVALUATED, and
aggregate [MISSING, FAIL] = MISSING. -/
theorem c3_aggregate_rollup (flags : List Flag) (hne : flags ≠ []) :
    (Flag.MISSING ∈ flags → aggregate flags = Flag.MISSING)
    ∧ ((∀ f ∈ flags, f = Flag.NOT_EVALUATED) →
        aggregate flags = Flag.NOT_EVALUATED)
    ∧ (Flag.MISSING ∉ flags → (∃ f ∈ flags, f ≠ Flag.NOT_EVALUATED) →
        aggregate flags ∈ flags ∧ aggregate flags ≠ Flag.NOT_EVALUATED ∧
          ∀ f ∈ flags, f ≠ Flag.NOT_EVALUATED →
            severity f ≤ severity (aggregate flags))
    ∧ aggregate [Flag.PASS, Flag.SUSPECT, Flag.FAIL] = Flag.FAIL
    ∧ aggregate [Flag.NOT_EVALUATED, Flag.NOT_EVALUATED] = Flag.NOT_EVALUATED
    ∧ aggregate [Flag.MISSING, Flag.FAIL] = Flag.MISSING := by
  refine ⟨?_, ?_, ?_, by decide, by decide, by decide⟩
  · intro h
    simp [aggregate, h]
  · intro hall
    have hmiss : Flag.MISSING ∉ flags := by
      intro hm
      exact absurd (hall _ hm) (by decide)
    have hfil : flags.filter (fun f => f ≠ Flag.NOT_EVALUATED) = [] := by
      rw [List.filter_eq_nil_iff]
      intro a ha
      simp [hall a ha]
    unfold aggregate
    rw [if_neg hmiss, hfil]
    rfl
  · intro hmiss hex
    obtain ⟨f0, hf0, hf0ne⟩ := hex
    have hagg : aggregate flags =
        (flags.filter (fun f => f ≠ Flag.NOT_EVALUATED)).foldl worse
          Flag.NOT_EVALUATED := by
      simp [aggregate, hmiss]
    have hf0mem : f0 ∈ flags.filter (fun f => f ≠ Flag.NOT_EVALUATED) := by
      simp [List.mem_filter, hf0, hf0ne]
    obtain ⟨hbase, hmax⟩ :=
      foldl_worse_le (flags.filter (fun f => f ≠ Flag.NOT_EVALUATED))
        Flag.NOT_EVALUATED
    rcases foldl_worse_mem (flags.filter (fun f => f ≠ Flag.NOT_EVALUATED))
        Flag.NOT_EVALUATED with hcase | hcase
    · exfalso
      have h0 := hmax f0 hf0mem
      rw [hcase] at h0
      have : f0 = Flag.NOT_EVALUATED :=
        severity_eq_zero f0 (Nat.le_zero.mp h0)
      exact hf0ne this
    · rw [hagg]
      have hmem := List.mem_filter.mp hcase
      refine ⟨hmem.1, by simpa using hmem.2, ?_⟩
      intro f hf hfne
      exact hmax f (by simp [List.mem_filter, hf, hfne])

/-- C3 witness: the rollup properties instantiated at the non-empty flag
list [PASS, SUSPECT, FAIL]. -/
theorem c3_aggregate_rollup_witness :
    (Flag.MISSING ∈ [Flag.PASS, Flag.SUSPECT, Flag.FAIL] →
        aggregate [Flag.PASS, Flag.SUSPECT, Flag.FAIL] = Flag.MISSING)
    ∧ ((∀ f ∈ [Flag.PASS, Flag.SUSPECT, Flag.FAIL], f = Flag.NOT_EVALUATED) →
        aggregate [Flag.PASS, Flag.SUSPECT, Flag.FAIL] = Flag.NOT_EVALUATED)
    ∧ (Flag.MISSING ∉ [Flag.PASS, Flag.SUSPECT, Flag.FAIL] →
        (∃ f ∈ [Flag.PASS, Flag.SUSPECT, Flag.FAIL],
            f ≠ Flag.NOT_EVALUATED) →
        aggregate [Flag.PASS, Flag.SUSPECT, Flag.FAIL] ∈
            [Flag.PASS, Flag.SUSPECT, Flag.FAIL] ∧
          aggregate [Flag.PASS, Flag.SUSPECT, Flag.FAIL] ≠
            Flag.NOT_EVALUATED ∧
          ∀ f ∈ [Flag.PASS, Flag.SUSPECT, Flag.FAIL],
            f ≠ Flag.NOT_EVALUATED →
              severity f ≤
                severity (aggregate [Flag.PASS, Flag.SUSPECT, Flag.FAIL]))
    ∧ aggregate [Flag.PASS, Flag.SUSPECT, Flag.FAIL] = Flag.FAIL
    ∧ aggregate [Flag.NOT_EVALUATED, Flag.NOT_EVALUATED] = Flag.NOT_EVALUATED
    ∧ aggregate [Flag.MISSING, Flag.FAIL] = Flag.MISSING :=
  c3_aggregate_rollup [Flag.PASS, Flag.SUSPECT, Flag.FAIL] (by decide)

lemma applyEntries_length (acc : List Flag) (es : List (Nat × Flag)) :
    (applyEntries acc es).length = acc.length := by
  induction es generalizing acc with
  | nil => rfl
  | cons p es ih =>
    show (applyEntries (acc.set p.1 p.2) es).length = acc.length
    rw [ih]
    exact List.length_set _ _ _

lemma applyEntries_getElem_not_mem (acc : List Flag) (es : List (Nat × Flag))
    (T : Nat) (h : T ∉ es.map Prod.fst) :
    (applyEntries acc es)[T]? = acc[T]? := by
  induction es generalizing acc with
  | nil => rfl
  | cons p es ih =>
    have hne : p.1 ≠ T := by
      intro hc
      exact h (by simp [hc.symm])
    have hrest : T ∉ es.map Prod.fst := by
      intro hc
      exact h (by simp [hc])
    show (applyEntries (acc.set p.1 p.2) es)[T]? = acc[T]?
    rw [ih _ hrest]
    exact List.getElem?_set_ne hne

lemma applyEntries_getElem_mem (acc : List Flag) (es : List (Nat × Flag))
    (T : Nat) (f : Flag) (hT : T < acc.length)
    (hnd : (es.map Prod.fst).Nodup) (hmem : (T, f) ∈ es) :
    (applyEntries acc es)[T]? = some f := by
  induction es generalizing acc with
  | nil => cases hmem
  | cons p es ih =>
    rw [List.map_cons] at hnd
    have hnd' := List.nodup_cons.mp hnd
    show (applyEntries (acc.set p.1 p.2) es)[T]? = some f
    rcases List.mem_cons.mp hmem with heq | hmem'
    · have hp1 : p.1 = T := by rw [← heq]
      have hp2 : p.2 = f := by rw [← heq]
      rw [applyEntries_getElem_not_mem _ _ _ (hp1 ▸ hnd'.1), hp1, hp2]
      exact List.getElem?_set_eq_of_lt f hT
    · exact ih (acc.set p.1 p.2) (by rw [List.length_set]; exact hT)
        hnd'.2 hmem'

/-- C4: when two contexts both cover the same time-axis position T for one
(variable, test) pair with different flags, the Collected Result at T is the
flag of the context listed later in configuration order — last-write-wins by
configuration order, not by flag severity. -/
theorem c4_collector_overlap (total : Nat) (r1 r2 : CtxResult) (T : Nat)
    (f1 f2 : Flag) (hT : T < total) (h1 : (T, f1) ∈ r1.entries)
    (h2 : (T, f2) ∈ r2.entries) (hnd : (r2.entries.map Prod.fst).Nodup)
    (hdiff : f1 ≠ f2) :
    (collect_results total [r1, r2])[T]? = some f2 := by
  show (applyEntries
      (applyEntries (List.replicate total Flag.NOT_EVALUATED) r1.entries)
      r2.entries)[T]? = some f2
  refine applyEntries_getElem_mem _ _ _ _ ?_ hnd h2
  rw [applyEntries_length, List.length_replicate]
  exact hT

/-- C4 witness: two single-entry contexts both covering position 1 of a
3-point axis, the first flagging PASS and the second (later-listed) FAIL; the
collected result at position 1 is FAIL, while a severity-based merge of
PASS and FAIL would give the same answer only by coincidence — the concrete
instance exercises configuration order. -/
theorem c4_collector_overlap_witness :
    (collect_results 3 [⟨[(1, Flag.FAIL)]⟩, ⟨[(1, Flag.PASS)]⟩])[1]? =
      some Flag.PASS :=
  c4_collector_overlap 3 ⟨[(1, Flag.FAIL)]⟩ ⟨[(1, Flag.PASS)]⟩ 1 Flag.FAIL
    Flag.PASS (by decide) (by decide) (by decide) (by decide) (by decide)

lemma sampleAt_replicate (n : Nat) (c : ℚ) (i : Nat) (h : i < n) :
    sampleAt (List.replicate n (some c)) i = some c := by
  simp [sampleAt, List.getElem?_replicate, h]

lemma timeAt_range_mul (n : Nat) (dt : ℚ) (i : Nat) (h : i < n) :
    timeAt ((List.range n).map (fun (k : Nat) => (k : ℚ) * dt)) i =
      (i : ℚ) * dt := by
  rw [timeAt, List.getElem?_map, List.getElem?_range h]
  rfl

lemma lastResetIdx_replicate (n : Nat) (c tol : ℚ) (htol : 0 ≤ tol) (i : Nat)
    (h : i < n) :
    lastResetIdx (List.replicate n (some c)) tol i = 0 := by
  induction i with
  | zero => rfl
  | succ i ih =>
    have h1 : i < n := Nat.lt_of_succ_lt h
    rw [lastResetIdx, sampleAt_replicate n c (i + 1) h,
      sampleAt_replicate n c i h1]
    show (if |c - c| > tol then i + 1
      else lastResetIdx (List.replicate n (some c)) tol i) = 0
    rw [if_neg (by rw [sub_self, abs_zero]; exact not_lt.mpr htol)]
    exact ih h1

/-- C7: a series that is flat (within a nonnegative tolerance) for its entire
length, sampled at times i·dt from the very first sample, is flagged purely
by the elapsed time since index 0: FAIL once it exceeds fail_threshold,
SUSPECT once it exceeds suspect_threshold, else PASS — with no prior
non-flat anchor required before the run. -/
theorem c7_flat_line_from_start (n : Nat) (c dt tol susTh failTh : ℚ)
    (htol : 0 ≤ tol) (i : Nat) (hi : i < n) :
    (flat_line_test (List.replicate n (some c))
        ((List.range n).map (fun (k : Nat) => (k : ℚ) * dt))
        tol susTh failTh)[i]? =
      some (if (i : ℚ) * dt > failTh then Flag.FAIL
            else if (i : ℚ) * dt > susTh then Flag.SUSPECT
            else Flag.PASS) := by
  have hlen : i < (List.replicate n (some c)).length := by
    rw [List.length_replicate]; exact hi
  rw [flat_line_test, List.length_replicate, List.getElem?_map,
    List.getElem?_range hi]
  show some (flatLineFlagAt (List.replicate n (some c)) _ tol susTh failTh i) = _
  rw [flatLineFlagAt, sampleAt_replicate n c i hi]
  show some (let elapsed := _ - _;
    if elapsed > failTh then Flag.FAIL
    else if elapsed > susTh then Flag.SUSPECT else Flag.PASS) = _
  rw [lastResetIdx_replicate n c tol htol i hi,
    timeAt_range_mul n dt i hi, timeAt_range_mul n dt 0 (Nat.pos_of_ne_zero (by omega))]
  norm_num

/-- C7 witness: a constant 4-sample series at 10-second spacing with
suspect threshold 5 s and fail threshold 25 s; at index 3 (30 s elapsed) the
flat-line test flags FAIL. -/
theorem c7_flat_line_from_start_witness :
    (0 : ℚ) ≤ 1 ∧ 3 < 4 ∧
      (flat_line_test (List.replicate 4 (some (7 : ℚ)))
          ((List.range 4).map (fun (k : Nat) => (k : ℚ) * 10)) 1 5 25)[3]? =
        some (if (3 : ℚ) * 10 > 25 then Flag.FAIL
              else if (3 : ℚ) * 10 > 5 then Flag.SUSPECT
              else Flag.PASS) :=
  ⟨by norm_num, by norm_num, c7_flat_line_from_start 4 7 10 1 5 25 (by norm_num) 3 (by norm_num)⟩

lemma timeAt_map_double (t : List ℚ) (i : Nat) :
    timeAt (t.map (fun x => 2 * x)) i = 2 * timeAt t i := by
  rw [timeAt, timeAt, List.getElem?_map]
  cases t[i]? <;> simp

/-- C8: the rate-of-change test is expressed as change-per-unit-time: for a
time axis with strictly increasing stamps over the input, doubling every
sampling time while halving the threshold yields the identical flag
sequence. -/
theorem c8_roc_time_scale (inp : List (Option ℚ)) (t : List ℚ) (th : ℚ)
    (hmono : ∀ i, 0 < i → i < inp.length → timeAt t (i - 1) < timeAt t i) :
    rate_of_change_test inp (t.map (fun x => 2 * x)) (th / 2) =
      rate_of_change_test inp t th := by
  rw [rate_of_change_test, rate_of_change_test]
  apply List.map_congr_left
  intro i hi
  have hlen : i < inp.length := List.mem_range.mp hi
  rw [rocFlagAt, rocFlagAt]
  cases hs : sampleAt inp i with
  | none => rfl
  | some v =>
    show (if i = 0 then Flag.NOT_EVALUATED else _) =
      (if i = 0 then Flag.NOT_EVALUATED else _)
    by_cases h0 : i = 0
    · rw [if_pos h0, if_pos h0]
    · rw [if_neg h0, if_neg h0]
      cases hp : sampleAt inp (i - 1) with
      | none => rfl
      | some prev =>
        show (if |v - prev| / (timeAt (t.map fun x => 2 * x) i -
            timeAt (t.map fun x => 2 * x) (i - 1)) > th / 2
          then Flag.SUSPECT else Flag.PASS) =
          (if |v - prev| / (timeAt t i - timeAt t (i - 1)) > th
          then Flag.SUSPECT else Flag.PASS)
        have hpos : 0 < timeAt t i - timeAt t (i - 1) := by
          have := hmono i (Nat.pos_of_ne_zero h0) hlen
          linarith
        rw [timeAt_map_double, timeAt_map_double]
        refine if_congr ?_ rfl rfl
        rw [show 2 * timeAt t i - 2 * timeAt t (i - 1) =
          2 * (timeAt t i - timeAt t (i - 1)) by ring]
        rw [show |v - prev| / (2 * (timeAt t i - timeAt t (i - 1))) =
          |v - prev| / (timeAt t i - timeAt t (i - 1)) / 2 by
            rw [div_div, mul_comm]]
        exact div_lt_div_iff_of_pos_right (by norm_num)

/-- C8 witness: a two-sample series 0, 17 at times 0, 10; doubling the times
to 0, 20 while halving the threshold 5 to 5/2 gives the identical flag
sequence. -/
theorem c8_roc_time_scale_witness :
    rate_of_change_test [some 0, some 17]
        (([(0 : ℚ), 10]).map (fun x => 2 * x)) ((5 : ℚ) / 2) =
      rate_of_change_test [some 0, some 17] [(0 : ℚ), 10] 5 :=
  c8_roc_time_scale [some 0, some 17] [(0 : ℚ), 10] 5
    (by
      intro i h1 h2
      have : i = 1 := by simp at h2; omega
      subst this
      norm_num [timeAt])

lemma ncRun_foldl_snd (cfg : List (String × StreamConfig))
    (p : List NcResult × Dataset) :
    (cfg.foldl
      (fun acc entry =>
        let inp := readVar acc.2 entry.1
        (acc.1 ++ entry.2.calls.map
          (fun tc => ⟨entry.1, tc.module, tc.test, runCall tc inp⟩), acc.2))
      p).2 = p.2 := by
  induction cfg generalizing p with
  | nil => rfl
  | cons e cfg ih => exact ih _

/-- C10: running a configuration against a dataset never modifies the
dataset: after `ncRun` the dataset's variables and attributes are identical
to their state before the run — the dataset is only read to supply test
inputs. -/
theorem c10_run_leaves_dataset_unchanged
    (cfg : List (String × StreamConfig)) (ds : Dataset) :
    ((ncRun cfg ds).2).vars = ds.vars ∧ ((ncRun cfg ds).2).attrs = ds.attrs ∧
      (ncRun cfg ds).2 = ds := by
  have h : (ncRun cfg ds).2 = ds := ncRun_foldl_snd cfg ([], ds)
  exact ⟨by rw [h], by rw [h], h⟩

lemma sizeV_pos (v : Value) : 1 ≤ sizeV v := by
  cases v <;> simp [sizeV]

lemma decodeV_encodeV (v : Value) :
    ∀ (fuel : Nat) (rest : List Token), sizeV v ≤ fuel →
      decodeV fuel (encodeV v ++ rest) = some (v, rest) := by
  induction v with
  | vnull =>
    intro fuel rest hf
    cases fuel with
    | zero => simp [sizeV] at hf
    | succ f => rfl
  | vnum q =>
    intro fuel rest hf
    cases fuel with
    | zero => simp [sizeV] at hf
    | succ f => rfl
  | vstr s =>
    intro fuel rest hf
    cases fuel with
    | zero => simp [sizeV] at hf
    | succ f => rfl
  | vnil =>
    intro fuel rest hf
    cases fuel with
    | zero => simp [sizeV] at hf
    | succ f => rfl
  | vseq hV tV ihh iht =>
    intro fuel rest hf
    cases fuel with
    | zero => simp [sizeV] at hf
    | succ f =>
      have hmax : max (sizeV hV) (sizeV tV) ≤ f := by
        rw [sizeV] at hf
        omega
      have hh : sizeV hV ≤ f := le_trans (le_max_left _ _) hmax
      have ht : sizeV tV ≤ f := le_trans (le_max_right _ _) hmax
      show decodeV (f + 1)
        (Token.tseq :: (encodeV hV ++ encodeV tV ++ rest)) = _
      rw [List.append_assoc]
      simp only [decodeV, ihh f _ hh, iht f rest ht]
  | vfield k vV ihv =>
    intro fuel rest hf
    cases fuel with
    | zero => simp [sizeV] at hf
    | succ f =>
      have hv : sizeV vV ≤ f := by
        rw [sizeV] at hf
        omega
      show decodeV (f + 1) (Token.tfield k :: (encodeV vV ++ rest)) = _
      simp only [decodeV, ihv f rest hv]

lemma sizeV_le_encode_length (v : Value) : sizeV v ≤ (encodeV v).length := by
  induction v with
  | vnull => simp [sizeV, encodeV]
  | vnum q => simp [sizeV, encodeV]
  | vstr s => simp [sizeV, encodeV]
  | vnil => simp [sizeV, encodeV]
  | vseq hV tV ihh iht =>
    rw [sizeV, encodeV]
    simp only [List.length_cons, List.length_append]
    have h1 : sizeV hV ≤ (encodeV hV).length + (encodeV tV).length :=
      le_trans ihh (Nat.le_add_right _ _)
    have h2 : sizeV tV ≤ (encodeV hV).length + (encodeV tV).length :=
      le_trans iht (Nat.le_add_left _ _)
    omega
  | vfield k vV ihv =>
    rw [sizeV, encodeV]
    simp only [List.length_cons]
    omega

lemma decodeTokens_encodeV (v : Value) :
    decodeTokens (encodeV v) = some (v, []) := by
  have h := decodeV_encodeV v (encodeV v).length [] (sizeV_le_encode_length v)
  rw [List.append_nil] at h
  rw [decodeTokens, h]

lemma parseParamVal_serialize (p : ParamVal) (h : ValidParam p) :
    parseParamVal (serializeParamVal p) = some p := by
  cases p with
  | pnum q => rfl
  | pstr s => rfl
  | pspan lo hi =>
    have hle : lo ≤ hi := h
    simp [serializeParamVal, parseParamVal, hle]

lemma parseParams_serialize (ps : List (String × ParamVal))
    (h : ∀ kp ∈ ps, ValidParam kp.2) :
    parseParams (serializeParams ps) = some ps := by
  induction ps with
  | nil => rfl
  | cons kp rest ih =>
    obtain ⟨k, p⟩ := kp
    have hp : ValidParam p := h (k, p) (List.mem_cons_self _ _)
    have hrest : ∀ kp ∈ rest, ValidParam kp.2 := fun kp hkp =>
      h kp (List.mem_cons_of_mem _ hkp)
    simp [serializeParams, parseParams, parseParamVal_serialize p hp,
      ih hrest]

lemma parseCall_serialize (c : TestCall) (h : ValidCall c) :
    parseCall (serializeCall c) = some c := by
  obtain ⟨hknown, hps⟩ := h
  simp [serializeCall, parseCall, hknown, parseParams_serialize c.params hps]

lemma parseCalls_serialize (cs : List TestCall) (h : ∀ c ∈ cs, ValidCall c) :
    parseCalls (serializeCalls cs) = some cs := by
  induction cs with
  | nil => rfl
  | cons c rest ih =>
    have hc : ValidCall c := h c (List.mem_cons_self _ _)
    have hrest : ∀ c ∈ rest, ValidCall c := fun c hc' =>
      h c (List.mem_cons_of_mem _ hc')
    simp [serializeCalls, parseCalls, parseCall_serialize c hc, ih hrest]

lemma parseStream_serialize (sc : StreamConfig) (h : ValidStream sc) :
    parseStream (serializeStream sc) = some sc := by
  simp [serializeStream, parseStream, parseCalls_serialize sc.calls h]

lemma parseOptNum_serialize (q : Option ℚ) :
    parseOptNum (serializeOptNum q) = some q := by
  cases q <;> rfl

lemma parseWindow_serialize (w : TimeWindow) :
    parseWindow (serializeWindow w) = some w := by
  simp [serializeWindow, parseWindow, parseOptNum_serialize]

lemma parsePoints_serialize (ps : List (ℚ × ℚ)) :
    parsePoints (serializePoints ps) = some ps := by
  induction ps with
  | nil => rfl
  | cons p rest ih =>
    obtain ⟨x, y⟩ := p
    simp [serializePoints, parsePoints, ih]

lemma parseRegionOpt_serialize (r : Option Region) :
    parseRegionOpt (serializeRegionOpt r) = some r := by
  cases r with
  | none => rfl
  | some reg =>
    simp [serializeRegionOpt, parseRegionOpt, parsePoints_serialize reg.pts]

lemma parseStreams_serialize (ss : List (String × StreamConfig))
    (h : ∀ s ∈ ss, ValidStream s.2) :
    parseStreams (serializeStreams ss) = some ss := by
  induction ss with
  | nil => rfl
  | cons s rest ih =>
    obtain ⟨name, sc⟩ := s
    have hs : ValidStream sc := h (name, sc) (List.mem_cons_self _ _)
    have hrest : ∀ s ∈ rest, ValidStream s.2 := fun s hs' =>
      h s (List.mem_cons_of_mem _ hs')
    simp [serializeStreams, parseStreams, parseStream_serialize sc hs,
      ih hrest]

lemma parseContext_serialize (cc : ContextConfig) (h : ValidContext cc) :
    parseContext (serializeContext cc) = some cc := by
  simp [serializeContext, parseContext, parseRegionOpt_serialize cc.region,
    parseWindow_serialize cc.window, parseStreams_serialize cc.streams h]

lemma parseContexts_serialize (cs : List ContextConfig)
    (h : ∀ c ∈ cs, ValidContext c) :
    parseContexts (serializeContexts cs) = some cs := by
  induction cs with
  | nil => rfl
  | cons c rest ih =>
    have hc : ValidContext c := h c (List.mem_cons_self _ _)
    have hrest : ∀ c ∈ rest, ValidContext c := fun c hc' =>
      h c (List.mem_cons_of_mem _ hc')
    simp [serializeContexts, parseContexts, parseContext_serialize c hc,
      ih hrest]

lemma parseTop_serialize (tc : TopConfig) (h : ValidTop tc) :
    parseTop (serializeTop tc) = some tc := by
  simp [serializeTop, parseTop, parseContexts_serialize tc.contexts h]

/-- C5: for every valid Stream, Context, or Top-Level Configuration, parsing
its serialized (token-stream) form yields exactly the original
configuration: parse (serialize c) = some c at all three levels. -/
theorem c5_config_roundtrip (sc : StreamConfig) (cc : ContextConfig)
    (tc : TopConfig) (hs : ValidStream sc) (hc : ValidContext cc)
    (ht : ValidTop tc) :
    parseStreamText (encodeV (serializeStream sc)) = some sc
    ∧ parseContextText (encodeV (serializeContext cc)) = some cc
    ∧ parseTopText (encodeV (serializeTop tc)) = some tc := by
  refine ⟨?_, ?_, ?_⟩
  · rw [parseStreamText, decodeTokens_encodeV]
    exact parseStream_serialize sc hs
  · rw [parseContextText, decodeTokens_encodeV]
    exact parseContext_serialize cc hc
  · rw [parseTopText, decodeTokens_encodeV]
    exact parseTop_serialize tc ht

/-- C9: parsing the in-memory structured mapping and parsing its equivalent
serialized text produce the same configuration object at every level of the
hierarchy, for every structured mapping whatsoever (including ones both
parsers reject). -/
theorem c9_text_parse_matches_mapping_parse (v : Value) :
    parseStreamText (encodeV v) = parseStream v
    ∧ parseContextText (encodeV v) = parseContext v
    ∧ parseTopText (encodeV v) = parseTop v := by
  refine ⟨?_, ?_, ?_⟩
  · rw [parseStreamText, decodeTokens_encodeV]
  · rw [parseContextText, decodeTokens_encodeV]
  · rw [parseTopText, decodeTokens_encodeV]

/-- A concrete stream configuration used to witness the round-trip. -/
def sampleStream : StreamConfig :=
  ⟨[⟨"qartod", "gross_range_test",
      [("suspect_span", .pspan 0 8), ("fail_span", .pspan 0 10)]⟩,
    ⟨"qartod", "aggregate", []⟩]⟩

/-- A concrete context configuration used to witness the round-trip. -/
def sampleContext : ContextConfig :=
  ⟨some ⟨[(0, 0), (0, 60), (80, 60), (80, 0)]⟩, ⟨some 0, some 2592000⟩,
    [("variable1", sampleStream)]⟩

/-- A concrete top-level configuration used to witness the round-trip. -/
def sampleTop : TopConfig :=
  ⟨[sampleContext, ⟨none, ⟨none, none⟩, [("variable2", sampleStream)]⟩]⟩

/-- C5 witness: the round-trip property instantiated at the concrete sample
configurations above. -/
theorem c5_config_roundtrip_witness :
    ValidStream sampleStream ∧ ValidContext sampleContext ∧
      ValidTop sampleTop ∧
      (parseStreamText (encodeV (serializeStream sampleStream)) =
          some sampleStream
        ∧ parseContextText (encodeV (serializeContext sampleContext)) =
          some sampleContext
        ∧ parseTopText (encodeV (serializeTop sampleTop)) = some sampleTop) :=
  ⟨by decide, by decide, by decide,
    c5_config_roundtrip sampleStream sampleContext sampleTop (by decide)
      (by decide) (by decide)⟩

end IoosQc
